import Mathlib

/-!
Shallow embedding of the core of the `cubes` OLAP framework sources:

* `cubes/metadata/dimension.py` — `Level`, `Hierarchy`, `Dimension`,
  `string_to_dimension_level`
* `cubes/ext.py` — the extension registry (`ExtensionFinder`)
* `cubes/sql/expressions.py` — the SQL expression compiler
* `cubes/sql/mapper.py` — the logical-to-physical mappers
* `cubes/server/decorators.py` — the HTTP `order` parameter parsing

Python exceptions are embedded as `Except CubesErr`; Python `None`/strings
with truthiness become `Option String` with an explicit `truthy` predicate;
Python `dict`s (which preserve insertion order and overwrite on duplicate
keys, keeping the original position) become association lists manipulated by
`dictSet`.
-/

namespace Cubes

/-- The error taxonomy of `cubes/errors.py` as far as the embedded code
raises it.  `pyException` stands for a plain Python `Exception` and
`pyIndexError` for an `IndexError`. -/
inductive CubesErr where
  | modelError (msg : String)
  | modelInconsistencyError (msg : String)
  | noSuchAttributeError (msg : String)
  | hierarchyError (msg : String)
  | argumentError (msg : String)
  | expressionError (msg : String)
  | syntaxError (msg : String)
  | internalError (msg : String)
  | pyException (msg : String)
  | pyIndexError
  deriving Repr, DecidableEq

/-- Python truthiness of an optional string: `None` and `""` are falsy. -/
def truthy : Option String → Bool
  | none => false
  | some s => s ≠ ""

/-- Python `a or b` on optional strings: `b` when `a` is falsy. -/
def pyOr (a b : Option String) : Option String :=
  if truthy a then a else b

/-- First value bound to `k` in an association list (Python `dict.get`). -/
def alGet {α : Type} (m : List (String × α)) (k : String) : Option α :=
  match m with
  | [] => none
  | (k', v) :: rest => if k' = k then some v else alGet rest k

/-- Python `dict` assignment `d[k] = v`: overwrite in place when the key is
present (keeping its original position), else append. -/
def dictSet {α : Type} (m : List (String × α)) (k : String) (v : α) :
    List (String × α) :=
  match m with
  | [] => [(k, v)]
  | (k', v') :: rest =>
      if k' = k then (k, v) :: rest else (k', v') :: dictSet rest k v

/-- Modelled from the spec: `object_dict` (from the metadata base module,
which is not among the given sources) builds an order-preserving name-keyed
mapping from a list of model objects; duplicate names overwrite. -/
def objectDict {α : Type} (key : α → String) (xs : List α) :
    List (String × α) :=
  xs.foldl (fun m x => dictSet m (key x) x) []

/-- Modelled from the spec: the variant of `object_dict` used for a
dimension's hierarchies, which fails with a model error built from
`error_message` on a duplicate name instead of overwriting. -/
def objectDictUnique {α : Type} (key : α → String)
    (errMsg : String → String) (xs : List α) :
    Except CubesErr (List (String × α)) :=
  xs.foldlM
    (fun m x =>
      if (alGet m (key x)).isSome then
        .error (.modelError (errMsg (key x)))
      else
        .ok (dictSet m (key x) x))
    []

/-! ## Dimensional metadata model (`cubes/metadata/dimension.py`) -/

/-- The shape of an `Attribute` (from the external `metadata/attributes.py`)
that `Level` and `Dimension` construction reads: its `name`, its qualified
reference `ref`, and the owning dimension.  Object identity of the owner is
modelled by the owner's name (`owner = none` means unowned). -/
structure Attr where
  name : String
  ref : String
  owner : Option String := none
  deriving Repr, DecidableEq

/-- `Level.attribute`: linear lookup by name, `NoSuchAttributeError` when
absent (the source raises `NoSuchAttributeError(name)`). -/
def levelAttribute (attrs : List Attr) (name : String) : Except CubesErr Attr :=
  match attrs.filter (fun a => a.name = name) with
  | a :: _ => .ok a
  | [] => .error (.noSuchAttributeError name)

/-- The `nonadditive` handling shared verbatim by `Level.__init__` and
`Dimension.__init__`.  The source's `if`/`elif` chain assigns the normalized
value (`None`, `"all"`, `"time"`) to `self.nonadditive`, but the statement
immediately after the chain — `self.nonadditive = nonadditive` — runs
unconditionally and overwrites it with the raw argument.  Only the error
branch of the chain therefore has any effect; the stored value is the raw
argument whenever no error is raised. -/
def checkNonadditive (nonadditive : Option String) :
    Except CubesErr (Option String) :=
  if ¬ truthy nonadditive ∨ nonadditive = some "none" then
    .ok nonadditive
  else if nonadditive = some "all" ∨ nonadditive = some "any" then
    .ok nonadditive
  else if nonadditive ≠ some "time" then
    .error (.modelError
      ("Unknown non-additive diension type '" ++ (nonadditive.getD "") ++ "'"))
  else
    .ok nonadditive

/-- The result of `Level.__init__`: the fields of a constructed `Level` that
the embedded code reads later. -/
structure Level where
  name : String
  attributes : List Attr
  key : Attr
  labelAttribute : Attr
  orderAttribute : Attr
  order : Option String := none
  cardinality : Option String := none
  role : Option String := none
  nonadditive : Option String := none
  deriving Repr, DecidableEq

/-- `Level.__init__`.  An empty attribute list is a `ModelError`; the key
defaults to the first attribute, the label attribute to the second (or the
key when only one attribute exists), the order attribute to the first; a
named `order_attribute` that does not resolve is re-raised as a
`NoSuchAttributeError` naming the level.  (The source's
`elif len(self.attributes) >= 1` branch is total once the emptiness check
has passed, so the nonempty match covers it.) -/
def levelInit (name : String) (attributes : List Attr)
    (key : Option String := none) (orderAttribute : Option String := none)
    (order : Option String := none) (labelAttribute : Option String := none)
    (cardinality : Option String := none) (role : Option String := none)
    (nonadditive : Option String := none) : Except CubesErr Level :=
  match attributes with
  | [] => .error (.modelError "Attribute list should not be empty")
  | a0 :: rest => do
      let storedNonadditive ← checkNonadditive nonadditive
      let keyAttr ←
        if truthy key then levelAttribute attributes (key.getD "")
        else .ok a0
      let labelAttr ←
        if truthy labelAttribute then
          levelAttribute attributes (labelAttribute.getD "")
        else
          match rest with
          | b :: _ => .ok b
          | [] => .ok keyAttr
      let orderAttr ←
        if truthy orderAttribute then
          match levelAttribute attributes (orderAttribute.getD "") with
          | .ok a => .ok a
          | .error _ =>
              .error (.noSuchAttributeError
                ("Unknown order attribute " ++ (orderAttribute.getD "")
                  ++ " in level " ++ name))
        else .ok a0
      .ok { name := name, attributes := attributes, key := keyAttr,
            labelAttribute := labelAttr, orderAttribute := orderAttr,
            order := order, cardinality := cardinality, role := role,
            nonadditive := storedNonadditive }

/-- The result of `Hierarchy.__init__`: the name and the internal
name-keyed, order-preserving level mapping `_levels`. -/
structure Hierarchy where
  name : String
  hlevels : List (String × Level)
  deriving Repr, DecidableEq

/-- `Hierarchy.__init__`: an empty level list is a
`ModelInconsistencyError`; otherwise `_levels = object_dict(levels)`.  (The
source's check that no level was passed as a string is vacuous in the typed
embedding.) -/
def hierarchyInit (name : String) (levels : List Level) :
    Except CubesErr Hierarchy :=
  if levels.isEmpty then
    .error (.modelInconsistencyError
      ("Hierarchy level list should not be empty (in " ++ name ++ ")"))
  else
    .ok { name := name, hlevels := objectDict (fun l => l.name) levels }

/-- `Hierarchy.levels`: the values of `_levels`, in insertion order. -/
def Hierarchy.levels (h : Hierarchy) : List Level :=
  h.hlevels.map (fun p => p.2)

/-- Python `list.index`: position of the first occurrence. -/
def listIndex (x : String) : List String → Option Nat
  | [] => none
  | y :: ys =>
      if y = x then some 0 else (listIndex x ys).map (fun i => i + 1)

/-- `Hierarchy.level_index`: position of level `name` among the `_levels`
keys, `HierarchyError` when absent. -/
def levelIndex (h : Hierarchy) (name : String) : Except CubesErr Nat :=
  match listIndex name (h.hlevels.map (fun p => p.1)) with
  | some i => .ok i
  | none => .error (.hierarchyError
      ("Level " ++ name ++ " is not part of hierarchy " ++ h.name))

/-- `Hierarchy.rollup`: with a `level`, truncate `path` to
`level_index(level.name) + 1` elements, `HierarchyError` when that exceeds
`len(path)`; without one, `path[0:len(path)-1]` for a nonempty path and
`[]` otherwise. -/
def rollup (h : Hierarchy) (path : List String)
    (level : Option Level := none) : Except CubesErr (List String) :=
  match level with
  | some lv => do
      let last := (← levelIndex h lv.name) + 1
      if last > path.length then
        .error (.hierarchyError
          ("Can not roll-up: level '" ++ lv.name ++ "' – it is deeper "
            ++ "than deepest element of path"))
      else
        .ok (path.take last)
  | none =>
      if path.length > 0 then .ok (path.take (path.length - 1))
      else .ok []

/-! ## `string_to_dimension_level` (`cubes/metadata/dimension.py`) -/

/-- A character of the source's identifier class `[\w\d_]`.  (Python's `\w`
additionally covers non-ASCII letters; the claims and the spec's grammar
`[A-Za-z0-9_]+` stay within ASCII, on which the two coincide.) -/
def isWordChar (c : Char) : Bool :=
  c.isAlphanum || c = '_'

/-- Longest prefix of word characters and the remainder (the greedy `\w+`
munch of Python's regex engine). -/
def spanWord : List Char → List Char × List Char
  | [] => ([], [])
  | c :: cs =>
      if isWordChar c then
        let (w, rest) := spanWord cs
        (c :: w, rest)
      else ([], c :: cs)

/-- `re.match` of the pattern
`(?P<dim>\w+)(@(?P<hier>\w+))?(:(?P<level>\w+))?` against `s` — a match is
anchored at the start only, optional groups are skipped when their lead
character or `\w+` body is absent, and trailing unmatched text is ignored.
Returns the group dictionary `(dim, hier, level)`, `none` when there is no
match (no leading word character). -/
def drilldownMatch (s : List Char) :
    Option (String × Option String × Option String) :=
  match spanWord s with
  | ([], _) => none
  | (dim, rest0) =>
      let (hier, rest1) :=
        match rest0 with
        | '@' :: r =>
            match spanWord r with
            | ([], _) => (none, rest0)
            | (w, r2) => (some (String.mk w), r2)
        | _ => (none, rest0)
      let lev :=
        match rest1 with
        | ':' :: r =>
            match spanWord r with
            | ([], _) => none
            | (w, _) => some (String.mk w)
        | _ => none
      some (String.mk dim, hier, lev)

/-- `string_to_dimension_level`: empty input is an `ArgumentError`; then the
pattern is matched with `re.match` and the group tuple returned, an
`ArgumentError` when the match fails. -/
def string_to_dimension_level (astring : String) :
    Except CubesErr (String × Option String × Option String) :=
  if astring = "" then
    .error (.argumentError "Drilldown string should not be empty")
  else
    match drilldownMatch astring.data with
    | some t => .ok t
    | none => .error (.argumentError
        ("String '" ++ astring ++ "' does not match drilldown level "
          ++ "pattern 'dimension@hierarchy:level'"))

/-- The full-match reading of the claim's grammar, written from the spec's
words (for comparison with the source's prefix-matching `re.match`): the
whole string is `dimension[@hierarchy][:level]` with each component a
nonempty identifier.  Because identifiers are word-runs and the separators
`@`/`:` are not word characters, greedy munching decides membership. -/
def matchesDrilldownPattern (s : String) : Bool :=
  match spanWord s.data with
  | ([], _) => false
  | (_, rest0) =>
      let afterHier : Option (List Char) :=
        match rest0 with
        | '@' :: r =>
            match spanWord r with
            | ([], _) => none
            | (_, r1) => some r1
        | _ => some rest0
      match afterHier with
      | none => false
      | some [] => true
      | some (':' :: r2) =>
          match spanWord r2 with
          | ([], _) => false
          | (_, r3) => r3.isEmpty
      | some _ => false

/-! ## `Dimension.__init__` (`cubes/metadata/dimension.py`) -/

/-- `_DEFAULT_LEVEL_ROLES["time"]`. -/
def defaultTimeLevelRoles : List String :=
  ["year", "quarter", "month", "day", "hour", "minute", "second", "week",
   "weeknum", "dow", "isoyear", "isoweek", "isoweekday"]

/-- The fields of a constructed `Dimension` that the embedded code reads. -/
structure Dimension where
  name : String
  dlevels : List (String × Level)
  dattributes : List (String × Attr)
  dattributesByRef : List (String × Attr)
  dhierarchies : List (String × Hierarchy)
  defaultHierarchy : Hierarchy
  defaultHierarchyName : String
  role : Option String := none
  cardinality : Option String := none
  category : Option String := none
  nonadditive : Option String := none
  deriving Repr, DecidableEq

/-- The attribute-ownership loop of `Dimension.__init__`: walking the levels
in order and their attributes in order, an attribute owned by another
dimension (`a.dimension is not None and a.dimension is not self`) is a
`ModelError`; otherwise the attribute is claimed and recorded in the
name-keyed and ref-keyed maps.  The freshly constructed dimension cannot be
the prior owner of an incoming attribute, so `owner ≠ none` is the error
condition. -/
def collectAttributes (dimName : String) (levels : List (String × Level)) :
    Except CubesErr (List (String × Attr) × List (String × Attr)) :=
  levels.foldlM
    (fun maps p =>
      p.2.attributes.foldlM
        (fun maps a =>
          match a.owner with
          | some other =>
              .error (.modelError
                ("Dimension '" ++ dimName ++ "' can not claim attribute '"
                  ++ a.name ++ "' because it is owned by another dimension '"
                  ++ other ++ "'."))
          | none =>
              let owned := { a with owner := some dimName }
              .ok (dictSet maps.1 owned.name owned,
                   dictSet maps.2 owned.ref owned))
        maps)
    ([], [])

/-- The hierarchy construction of `Dimension.__init__`: a truthy explicit
`hierarchies` list is keyed by name with a duplicate name being a model
error ("Duplicate hierarchy '<key>' in cube '<cube>'"); otherwise a single
`"default"` hierarchy over all levels in their given order. -/
def dimensionHierarchies (name : String)
    (ownedLevels : List (String × Level)) :
    Option (List Hierarchy) → Except CubesErr (List (String × Hierarchy))
  | some hs =>
      if ¬ hs.isEmpty then
        objectDictUnique (fun h => h.name)
          (fun key => "Duplicate hierarchy '" ++ key ++ "' in cube '"
            ++ name ++ "'") hs
      else do
        let d ← hierarchyInit "default" (ownedLevels.map (fun p => p.2))
        pure [(d.name, d)]
  | none => do
      let d ← hierarchyInit "default" (ownedLevels.map (fun p => p.2))
      pure [(d.name, d)]

/-- The default-hierarchy resolution at the end of `Dimension.__init__`:
`default_name = default_hierarchy_name or "default"` and `hierarchy =
self._hierarchies.get(default_name, list(self._hierarchies.values())[0])`
— the `[0]` default is evaluated first and is an `IndexError` on an empty
mapping (which construction never produces). -/
def resolveDefaultHierarchy (dhierarchies : List (String × Hierarchy))
    (defaultHierarchyName : Option String) : Except CubesErr Hierarchy := do
  let firstHierarchy ←
    match dhierarchies with
    | [] => .error .pyIndexError
    | p :: _ => pure p.2
  let defaultName := (pyOr defaultHierarchyName (some "default")).getD ""
  .ok ((alGet dhierarchies defaultName).getD firstHierarchy)

/-- `Dimension.__init__`.  Exactly one of `levels`/`attributes` must be
given (Python truthiness: an empty list counts as absent); a flat
`attributes` list is wrapped in a single synthetic level named after the
dimension; a `role` with default level roles assigns `level.role =
level.name` for matching level names; the `nonadditive` chain is shared
with `Level.__init__` (including its dead normalization, see
`checkNonadditive`); explicit hierarchies are keyed by name with a
duplicate being a model error, else a single `"default"` hierarchy over all
levels is built; the default hierarchy is `_hierarchies.get(name or
"default", first hierarchy)` and its name is stored back. -/
def dimensionInit (name : String)
    (levels : Option (List Level) := none)
    (hierarchies : Option (List Hierarchy) := none)
    (defaultHierarchyName : Option String := none)
    (role : Option String := none) (cardinality : Option String := none)
    (category : Option String := none) (nonadditive : Option String := none)
    (attributes : Option (List Attr) := none) :
    Except CubesErr Dimension := do
  let storedNonadditive ← checkNonadditive nonadditive
  let levelsArg := levels.getD []
  let attrsArg := attributes.getD []
  if levelsArg.isEmpty ∧ attrsArg.isEmpty then
    .error (.modelError
      ("No levels or attriutes specified for dimension " ++ name))
  else if ¬ levelsArg.isEmpty ∧ ¬ attrsArg.isEmpty then
    .error (.modelError "Both levels and attributes specified")
  else do
    let levelList ←
      if ¬ attrsArg.isEmpty then
        (levelInit name attrsArg).map (fun level => [level])
      else
        .ok levelsArg
    let ownedLevels0 := objectDict (fun l => l.name) levelList
    let defaultRoles :=
      match role with
      | some r => if r = "time" then defaultTimeLevelRoles else []
      | none => []
    let ownedLevels := ownedLevels0.map (fun p =>
      if ¬ defaultRoles.isEmpty ∧ defaultRoles.contains p.2.name then
        (p.1, { p.2 with role := some p.2.name })
      else p)
    let (attrsByName, attrsByRef) ← collectAttributes name ownedLevels
    let dhierarchies ← dimensionHierarchies name ownedLevels hierarchies
    let hierarchy ← resolveDefaultHierarchy dhierarchies defaultHierarchyName
    .ok { name := name, dlevels := ownedLevels, dattributes := attrsByName,
          dattributesByRef := attrsByRef, dhierarchies := dhierarchies,
          defaultHierarchy := hierarchy,
          defaultHierarchyName := hierarchy.name, role := role,
          cardinality := cardinality, category := category,
          nonadditive := storedNonadditive }

/-! ## `order` query-parameter parsing (`cubes/server/decorators.py`,
`requires_browser`) -/

/-- Python `str.split(sep)` for a one-character separator: `""` yields
`[""]`, separators at the ends yield empty segments. -/
def splitChar (sep : Char) : List Char → List (List Char)
  | [] => [[]]
  | c :: rest =>
      if c = sep then [] :: splitChar sep rest
      else
        match splitChar sep rest with
        | h :: t => (c :: h) :: t
        | [] => [[c]]

/-- One comma-segment of an `order` value: `order.split(":")` gives the
`(field, direction)` pair — `(segment, None)` when there is no colon, else
the first two parts. -/
def parseOrderSegment (segment : List Char) : String × Option String :=
  match splitChar ':' segment with
  | [_] => (String.mk segment, none)
  | p1 :: p2 :: _ => (String.mk p1, some (String.mk p2))
  | [] => (String.mk segment, none)

/-- The ordering collection loop of `requires_browser`: every value of the
repeatable `order` parameter is comma-split and each segment parsed,
appending to `g.order` in order. -/
def parseOrderArgs (values : List String) : List (String × Option String) :=
  values.foldl
    (fun acc orders =>
      acc ++ (splitChar ',' orders.data).map parseOrderSegment)
    []

/-! ## Extension registry (`cubes/ext.py`) -/

/-- The fixed `_BUILTIN_EXTENSIONS` table: extension type → short name →
`"module:factory-attribute"` path. -/
def builtinExtensions : List (String × List (String × String)) :=
  [("authenticators",
     [("admin_admin", "cubes.server.auth:AdminAdminAuthenticator"),
      ("pass_parameter", "cubes.server.auth:PassParameterAuthenticator"),
      ("http_basic_proxy", "cubes.server.auth:HTTPBasicProxyAuthenticator")]),
   ("authorizers",
     [("simple", "cubes.auth:SimpleAuthorizer")]),
   ("browsers",
     [("sql", "cubes.sql.browser:SQLBrowser"),
      ("slicer", "cubes.server.browser:SlicerBrowser")]),
   ("formatters",
     [("text_table", "cubes.formatters:TextTableFormatter"),
      ("simple_data_table", "cubes.formatters:SimpleDataTableFormatter"),
      ("text_data_table", "cubes.formatters:TextDataTableFormatter"),
      ("cross_data_table", "cubes.formatters:CrossTableFormatter"),
      ("html_cross_data_table", "cubes.formatters:HTMLCrossTableFormatter"),
      ("simple_html_table", "cubes.formatters:SimpleHtmlTableFormatter"),
      ("rickshaw_multi_series",
        "cubes.formatters:RickshawMultiSeriesFormatter")]),
   ("providers",
     [("default", "cubes.providers:StaticModelProvider"),
      ("slicer", "cubes.server.store:SlicerProvider")]),
   ("request_log_handlers",
     [("default", "cubes.server.logging:DefaultRequestLogger"),
      ("csv", "cubes.server.logging:CSVRequestLogger"),
      ("json", "cubes.server.logging:JSONRequestLogger"),
      ("sql", "cubes.sql.logging:SQLRequestLogger")]),
   ("stores",
     [("sql", "cubes.sql.store:SQLStore"),
      ("slicer", "cubes.server.store:SlicerStore")])]

/-- A resolved `_Extension`: its type, its name and the
`"module:attribute"` factory path it was resolved from (the actual module
load and factory call are external effects). -/
structure Extension where
  type_ : String
  name : String
  factoryPath : String
  deriving Repr, DecidableEq

/-- An `ExtensionFinder`: the extension type, the cache of already-resolved
extensions, and the builtin sub-table for the type. -/
structure ExtensionFinder where
  type_ : String
  extensions : List (String × Extension)
  builtins : List (String × String)
  deriving Repr, DecidableEq

/-- `ExtensionFinder.__init__`. -/
def extensionFinderInit (type_ : String) : ExtensionFinder :=
  { type_ := type_, extensions := [],
    builtins := (alGet builtinExtensions type_).getD [] }

/-- `ExtensionFinder.builtin`: `None` when `name` is not in the builtin
table, else a resolved extension cached under `name`. -/
def finderBuiltin (f : ExtensionFinder) (name : String) :
    Option (Extension × ExtensionFinder) :=
  match alGet f.builtins name with
  | none => none
  | some extMod =>
      let ext : Extension := { type_ := f.type_, name := name,
                               factoryPath := extMod }
      some (ext, { f with extensions := dictSet f.extensions name ext })

/-- `ExtensionFinder._get`: cache, then builtin table; when both miss, the
source enters the debugger (`import pdb; pdb.set_trace()`) and raises a
plain `Exception("nono")` — the discovery retry and the
`InternalError("Unknown '<type>' extension '<name>'")` below that `raise`
are unreachable. -/
def finderGet (f : ExtensionFinder) (name : String) :
    Except CubesErr (Extension × ExtensionFinder) :=
  match alGet f.extensions name with
  | some ext => .ok (ext, f)
  | none =>
      match finderBuiltin f name with
      | some r => .ok r
      | none => .error (.pyException "nono")

/-! ## SQL expression compiler (`cubes/sql/expressions.py`) -/

/-- `SQL_FUNCTIONS`. -/
def SQL_FUNCTIONS : List String :=
  ["lower", "upper", "left", "right", "substr", "lpad", "rpad", "replace",
   "concat", "repeat", "position", "round", "trunc", "floor", "ceil", "mod",
   "remainder", "sign", "min", "max", "pow", "exp", "log", "log10", "sqrt",
   "cos", "sin", "tan", "extract", "coalesce", "nullif", "case"]

/-- `SQL_AGGREGATE_FUNCTIONS`. -/
def SQL_AGGREGATE_FUNCTIONS : List String :=
  ["sum", "min", "max", "avg", "stddev", "variance", "count"]

/-- `SQL_ALL_FUNCTIONS = SQL_FUNCTIONS + SQL_AGGREGATE_FUNCTIONS`. -/
def SQL_ALL_FUNCTIONS : List String :=
  SQL_FUNCTIONS ++ SQL_AGGREGATE_FUNCTIONS

/-- `SQL_VARIABLES`. -/
def SQL_VARIABLES : List String :=
  ["current_date", "current_time", "local_date", "local_time"]

/-- A literal of the expression language (Python passes `str` or `int` to
`compile_literal`). -/
inductive SqlLit where
  | int (n : Int)
  | str (s : String)
  deriving Repr, DecidableEq

/-- A SQLAlchemy column expression as the compiler builds it: seeded base
columns, zero-argument SQL variables (`sql.func.<name>()`), bound literal
parameters (`bindparam("literal", v, unique=True)`), binary/unary operator
applications (with `and`/`or` routed through the `and_`/`or_` combinators)
and function calls (`sql.func.<name>(*args)`). -/
inductive SqlCol where
  | column (name : String)
  | sqlvar (name : String)
  | bindparam (key : String) (v : SqlLit) (unique : Bool)
  | binop (op : String) (a b : SqlCol)
  | unop (op : String) (a : SqlCol)
  | funcall (name : String) (args : List SqlCol)
  deriving Repr

/-- An attribute expression tree as handed to the external
`expressions.Compiler` framework, which compiles it bottom-up through the
`compile_*` hooks of `SQLExpressionCompiler`. -/
inductive SqlExpr where
  | lit (v : SqlLit)
  | var (name : String)
  | binary (op : String) (a b : SqlExpr)
  | unary (op : String) (a : SqlExpr)
  | func (name : String) (args : List SqlExpr)
  deriving Repr

/-- `SQLExpressionContext`: the growing name→column mapping, the parameter
mapping and the diagnostic label. -/
structure SQLExpressionContext where
  columns : List (String × SqlCol)
  parameters : List (String × SqlCol)
  label : Option String := none
  deriving Repr

/-- `SQLExpressionContext.resolve`: columns, then parameters, then the four
zero-argument SQL variables, else an `ExpressionError` whose message names
the variable and, when a label is set, the label. -/
def contextResolve (ctx : SQLExpressionContext) (varName : String) :
    Except CubesErr SqlCol :=
  match alGet ctx.columns varName with
  | some c => .ok c
  | none =>
      match alGet ctx.parameters varName with
      | some p => .ok p
      | none =>
          if SQL_VARIABLES.contains varName then
            .ok (.sqlvar varName)
          else
            .error (.expressionError
              ("Unknown attribute, variable or parameter '" ++ varName
                ++ "'"
                ++ (if truthy ctx.label then " in " ++ ctx.label.getD ""
                    else "")))

/-- `SQLExpressionContext.function`: an `ExpressionError` outside
`SQL_ALL_FUNCTIONS`, else the SQL function generator for `name`. -/
def contextFunction (name : String) : Except CubesErr String :=
  if ¬ SQL_ALL_FUNCTIONS.contains name then
    .error (.expressionError ("Unknown function '" ++ name ++ "'"))
  else
    .ok name

/-- `SQLExpressionContext.add_column`. -/
def addColumn (ctx : SQLExpressionContext) (name : String) (column : SqlCol) :
    SQLExpressionContext :=
  { ctx with columns := dictSet ctx.columns name column }

/-- `SQLExpressionCompiler.compile_binary`: the fixed operator table, any
other operator token a `SyntaxError`. -/
def compileBinary (op : String) (op1 op2 : SqlCol) : Except CubesErr SqlCol :=
  if op = "*" ∨ op = "/" ∨ op = "%" ∨ op = "+" ∨ op = "-" ∨ op = "&"
      ∨ op = "|" ∨ op = "<" ∨ op = "<=" ∨ op = ">" ∨ op = ">=" ∨ op = "="
      ∨ op = "!=" ∨ op = "and" ∨ op = "or" then
    .ok (.binop op op1 op2)
  else
    .error (.syntaxError ("Unknown operator '" ++ op ++ "'"))

/-- `SQLExpressionCompiler.compile_unary`. -/
def compileUnary (op : String) (operand : SqlCol) : Except CubesErr SqlCol :=
  if op = "-" ∨ op = "+" ∨ op = "~" ∨ op = "not" then
    .ok (.unop op operand)
  else
    .error (.syntaxError ("Unknown unary operator '" ++ op ++ "'"))

mutual

/-- The external `expressions.Compiler` walk instantiated with
`SQLExpressionCompiler`'s hooks: literals become unique `"literal"` bind
parameters, variables resolve through the context, operator nodes go
through the operator tables, and function calls compile their arguments and
resolve the function name through the whitelist. -/
def compileExpr (ctx : SQLExpressionContext) : SqlExpr →
    Except CubesErr SqlCol
  | .lit v => .ok (.bindparam "literal" v true)
  | .var name => contextResolve ctx name
  | .binary op a b => do
      compileBinary op (← compileExpr ctx a) (← compileExpr ctx b)
  | .unary op a => do
      compileUnary op (← compileExpr ctx a)
  | .func name args => do
      let cargs ← compileExprList ctx args
      let fname ← contextFunction name
      .ok (.funcall fname cargs)

/-- Argument-list compilation for `compileExpr`. -/
def compileExprList (ctx : SQLExpressionContext) : List SqlExpr →
    Except CubesErr (List SqlCol)
  | [] => .ok []
  | e :: es => do
      let c ← compileExpr ctx e
      let cs ← compileExprList ctx es
      .ok (c :: cs)

end

/-- The shape of a dependent attribute consumed by `compile_attributes`:
its qualified reference `ref`, its optional aggregate `function` name and
its `expression` tree. -/
structure SqlAttr where
  ref : String
  function : Option String := none
  expression : SqlExpr
  deriving Repr

/-- The per-attribute loop of `compile_attributes`: attributes with a
truthy aggregate `function` dispatch through the external
`get_aggregate_function` lookup (here the parameter `aggFn`, keyed by the
lower-cased function name); the rest compile their expression; either way
the result is added to the context under the attribute's `ref` before the
next attribute is processed. -/
def compileAttributesLoop
    (aggFn : String → SqlAttr → SQLExpressionContext → Option Bool → SqlCol)
    (coalesce : Option Bool) (ctx : SQLExpressionContext) :
    List SqlAttr → Except CubesErr SQLExpressionContext
  | [] => .ok ctx
  | attr :: rest => do
      let column ←
        if truthy attr.function then
          .ok (aggFn (attr.function.getD "").toLower attr ctx coalesce)
        else
          compileExpr ctx attr.expression
      compileAttributesLoop aggFn coalesce (addColumn ctx attr.ref column) rest

/-- `compile_attributes`: seeds a context from `bases` and `parameters`,
processes `dependants` in order and returns the context's full name→column
mapping.  `aggFn` stands for the external aggregate-function lookup. -/
def compile_attributes
    (aggFn : String → SqlAttr → SQLExpressionContext → Option Bool → SqlCol)
    (bases : List (String × SqlCol)) (dependants : List SqlAttr)
    (parameters : List (String × SqlCol)) (coalesce : Option Bool := none)
    (label : Option String := none) :
    Except CubesErr (List (String × SqlCol)) := do
  let ctx : SQLExpressionContext :=
    { columns := bases, parameters := parameters, label := label }
  let final ← compileAttributesLoop aggFn coalesce ctx dependants
  .ok final.columns

/-! ## Logical-to-physical mappers (`cubes/sql/mapper.py`) -/

/-- The physical `(schema, table, column)` triple.  Modelled from the spec:
`ColumnReference` lives in the external `metadata/physical.py`
("`(schema, table, column)` triple identifying a physical SQL column");
`ColumnReference.from_dict` turns the mapping-table entry into such a
triple, so the mapping table is embedded as holding triples directly. -/
structure ColumnReference where
  schema : Option String := none
  table : String
  column : String
  deriving Repr, DecidableEq

/-- The shape of a `Dimension` that the mapper reads: its `name` and, per
level, the number of attributes — exactly what `is_flat` (one level) and
`has_details` (some level with more than one attribute) consult.  The
`master` delegation of those properties concerns only clone-derived
dimensions and is not modelled. -/
structure MapperDim where
  name : String
  levelAttrCounts : List Nat
  deriving Repr, DecidableEq

/-- `Dimension.is_flat`: exactly one level. -/
def MapperDim.is_flat (d : MapperDim) : Bool :=
  d.levelAttrCounts.length = 1

/-- `Dimension.has_details`: some level with more than one attribute
(`Level.has_details`). -/
def MapperDim.has_details (d : MapperDim) : Bool :=
  d.levelAttrCounts.any (fun n => n > 1)

/-- The shape of an `AttributeBase` that the mapper reads: `name`, the
qualified reference `ref`, the optional derived `expression`, the declared
`locales` and the owning dimension.  Modelled from the spec: the
localizability check of the external attribute class holds exactly when
locales are declared. -/
structure MapperAttr where
  name : String
  ref : String
  expression : Option String := none
  locales : List String := []
  dimension : Option MapperDim := none
  deriving Repr, DecidableEq

/-- `AttributeBase.is_localizable` (external): locales are declared. -/
def MapperAttr.is_localizable (a : MapperAttr) : Bool :=
  ¬ a.locales.isEmpty

/-- Modelled from the spec: `AttributeBase.localized_ref` (external) — the
attribute's locale-qualified logical reference: its qualified reference,
extended by the locale when one is given. -/
def localizedRef (a : MapperAttr) (locale : Option String) : String :=
  match locale with
  | some l => a.ref ++ "." ++ l
  | none => a.ref

/-- The locale selection shared by `Mapper.__getitem__` and
`StarSchemaMapper.__getitem__` for a localizable attribute:
`self.locale if self.locale in attribute.locales else attribute.locales[0]`.
(`attribute.locales[0]` is only reached under the localizability guard, so
the list is nonempty there; `headD` stands for the indexing.) -/
def chooseLocale (mapperLocale : Option String) (a : MapperAttr) : String :=
  match mapperLocale with
  | some l => if a.locales.contains l then l else a.locales.headD ""
  | none => a.locales.headD ""

/-- The naming-convention keys `Mapper.__init__` reads, each through
`naming.get(key, NAMING_DEFAULTS.get(key))`; all of these default to
`None`, so an absent key is `none`. -/
structure Naming where
  dimension_prefix : Option String := none
  dimension_suffix : Option String := none
  fact_prefix : Option String := none
  fact_suffix : Option String := none
  aggregated_prefix : Option String := none
  aggregated_suffix : Option String := none
  dimension_key_prefix : Option String := none
  dimension_key_suffix : Option String := none
  schema : Option String := none
  fact_schema : Option String := none
  dimension_schema : Option String := none
  aggregate_schema : Option String := none
  deriving Repr, DecidableEq

/-- The shape of a `Cube` that `Mapper.__init__` reads: `name`, the
optional explicit fact-table override `fact` and the explicit `mappings`
table (logical reference → physical reference). -/
structure MapperCube where
  name : String
  fact : Option String := none
  mappings : List (String × ColumnReference) := []
  deriving Repr, DecidableEq

/-- A constructed `Mapper`. -/
structure Mapper where
  locale : Option String := none
  mappings : List (String × ColumnReference) := []
  fact_name : String
  dimension_prefix : Option String := none
  dimension_suffix : Option String := none
  fact_prefix : Option String := none
  fact_suffix : Option String := none
  aggregated_prefix : Option String := none
  aggregated_suffix : Option String := none
  schema : Option String := none
  fact_schema : Option String := none
  dimension_schema : Option String := none
  aggregate_schema : Option String := none
  deriving Repr, DecidableEq

/-- `Mapper.dimension_table_name`: configured prefix + name + suffix. -/
def dimensionTableName (m : Mapper) (name : String) : String :=
  (m.dimension_prefix.getD "") ++ name ++ (m.dimension_suffix.getD "")

/-- `Mapper.fact_table_name`. -/
def factTableName (m : Mapper) (name : String) : String :=
  (m.fact_prefix.getD "") ++ name ++ (m.fact_suffix.getD "")

/-- `Mapper.aggregated_table_name`. -/
def aggregatedTableName (m : Mapper) (name : String) : String :=
  (m.aggregated_prefix.getD "") ++ name ++ (m.aggregated_suffix.getD "")

/-- `Mapper.__init__`: copies the naming keys, `mappings = cube.mappings or
{}`, and `fact_name = cube.fact or self.fact_table_name(cube.name)`. -/
def mapperInit (cube : MapperCube) (naming : Naming)
    (locale : Option String := none) : Mapper :=
  let m0 : Mapper :=
    { locale := locale, mappings := cube.mappings, fact_name := "",
      dimension_prefix := naming.dimension_prefix,
      dimension_suffix := naming.dimension_suffix,
      fact_prefix := naming.fact_prefix, fact_suffix := naming.fact_suffix,
      aggregated_prefix := naming.aggregated_prefix,
      aggregated_suffix := naming.aggregated_suffix,
      schema := naming.schema, fact_schema := naming.fact_schema,
      dimension_schema := naming.dimension_schema,
      aggregate_schema := naming.aggregate_schema }
  { m0 with fact_name :=
      (pyOr cube.fact (some (factTableName m0 cube.name))).getD "" }

/-- `Mapper.attribute_table`: for an owned attribute the dimension schema
(falling back to the general one) and either the fact table — when the
dimension is flat and has no details — or the dimension's derived table;
for an unowned attribute the general schema and the fact table. -/
def attributeTable (m : Mapper) (a : MapperAttr) : Option String × String :=
  match a.dimension with
  | some d =>
      (pyOr m.dimension_schema m.schema,
       if d.is_flat ∧ ¬ d.has_details then m.fact_name
       else dimensionTableName m d.name)
  | none => (m.schema, m.fact_name)

/-- `Mapper.__getitem__` — the base implicit reference: the attribute's
name (suffixed `_<locale>` when localizable) in the table chosen by
`attribute_table`. -/
def mapperGetItem (m : Mapper) (a : MapperAttr) : ColumnReference :=
  let columnName :=
    if a.is_localizable then
      a.name ++ "_" ++ chooseLocale m.locale a
    else a.name
  let (schema, table) := attributeTable m a
  { schema := schema, table := table, column := columnName }

/-- `StarSchemaMapper.__getitem__`: an expression-bearing attribute is a
`ModelError`; otherwise the locale-qualified logical reference is looked up
in the explicit mapping table, and on a miss the base implicit rule
applies. -/
def starSchemaGetItem (m : Mapper) (a : MapperAttr) :
    Except CubesErr ColumnReference :=
  if a.expression.isSome then
    .error (.modelError
      ("Attribute '" ++ a.name ++ "' has an expression, it can not have "
        ++ "a direct physical representation"))
  else
    let locale :=
      if a.is_localizable then some (chooseLocale m.locale a) else none
    let logical := localizedRef a locale
    match alGet m.mappings logical with
    | some physical => .ok physical
    | none => .ok (mapperGetItem m a)

/-! ## Association-list lemmas -/

theorem alGet_dictSet_self {α : Type} (m : List (String × α)) (k : String)
    (v : α) : alGet (dictSet m k v) k = some v := by
  induction m with
  | nil => simp [dictSet, alGet]
  | cons p rest ih =>
      by_cases h : p.1 = k
      · simp [dictSet, alGet, h]
      · simp [dictSet, alGet, h, ih]

theorem alGet_dictSet_ne {α : Type} (m : List (String × α)) (k k' : String)
    (v : α) (h : k ≠ k') : alGet (dictSet m k v) k' = alGet m k' := by
  induction m with
  | nil => simp [dictSet, alGet, h]
  | cons p rest ih =>
      by_cases hp : p.1 = k
      · simp [dictSet, alGet, hp, h]
      · simp [dictSet, alGet, hp, ih]

theorem mem_of_alGet_some {α : Type} {m : List (String × α)} {k : String}
    {v : α} (h : alGet m k = some v) : (k, v) ∈ m := by
  induction m with
  | nil => simp [alGet] at h
  | cons p rest ih =>
      obtain ⟨k1, v1⟩ := p
      by_cases hp : k1 = k
      · subst hp
        simp only [alGet, if_pos rfl] at h
        cases h
        exact List.mem_cons_self _ _
      · simp only [alGet, if_neg hp] at h
        exact List.mem_cons_of_mem _ (ih h)

theorem mem_dictSet {α : Type} {m : List (String × α)} {k : String} {v : α}
    {p : String × α} (h : p ∈ dictSet m k v) : p ∈ m ∨ p = (k, v) := by
  induction m with
  | nil => simp [dictSet] at h; simp [h]
  | cons q rest ih =>
      by_cases hq : q.1 = k
      · simp only [dictSet, if_pos hq] at h
        rcases List.mem_cons.mp h with h1 | h1
        · right; exact h1
        · left; exact List.mem_cons_of_mem _ h1
      · simp only [dictSet, if_neg hq] at h
        rcases List.mem_cons.mp h with h1 | h1
        · left; exact h1 ▸ List.mem_cons_self _ _
        · rcases ih h1 with h2 | h2
          · left; exact List.mem_cons_of_mem _ h2
          · right; exact h2

/-- Every entry of an `objectDictUnique` result is keyed by its value's
name. -/
theorem objectDictUnique_key_inv {α : Type} (key : α → String)
    (errMsg : String → String) (xs : List α) (m : List (String × α))
    (h : objectDictUnique key errMsg xs = .ok m) :
    ∀ p ∈ m, key p.2 = p.1 := by
  suffices H : ∀ (xs : List α) (m0 m : List (String × α)),
      (∀ p ∈ m0, key p.2 = p.1) →
      xs.foldlM (fun m x =>
        if (alGet m (key x)).isSome then
          Except.error (CubesErr.modelError (errMsg (key x)))
        else
          Except.ok (dictSet m (key x) x)) m0 = .ok m →
      ∀ p ∈ m, key p.2 = p.1 by
    exact H xs [] m (by simp)  h
  intro xs
  induction xs with
  | nil =>
      intro m0 m hinv h
      simp only [List.foldlM] at h
      cases h
      exact hinv
  | cons x rest ih =>
      intro m0 m hinv h
      simp only [List.foldlM] at h
      by_cases hdup : (alGet m0 (key x)).isSome
      · simp only [hdup, if_pos, Bind.bind, Except.bind] at h
        exact Except.noConfusion h
      · simp only [hdup, if_neg, Bool.false_eq_true, not_false_eq_true,
          Bind.bind, Except.bind] at h
        refine ih (dictSet m0 (key x) x) m ?_ h
        intro p hp
        rcases mem_dictSet hp with h1 | h1
        · exact hinv p h1
        · subst h1; rfl

/-! ## C1 — `nonadditive` normalization -/

/-- C1: the claim says `Level`/`Dimension` construction stores
`nonadditive` normalized (absent/"none" → absent, "all"/"any" → "all",
"time" → "time", others a model error).  The error part holds, but the
normalization is dead code: `self.nonadditive = nonadditive` right after
the `if`/`elif` chain overwrites the normalized value with the raw
argument in both constructors, so `"any"` is stored as `"any"` (not
`"all"`) and `"none"` is stored as the string `"none"` (not absent). -/
theorem c1_nonadditive_not_normalized :
    (levelInit "l" [{ name := "a", ref := "d.a" }]
        none none none none none none (some "any")).map Level.nonadditive
      = .ok (some "any") ∧
    (levelInit "l" [{ name := "a", ref := "d.a" }]
        none none none none none none (some "none")).map Level.nonadditive
      = .ok (some "none") ∧
    (dimensionInit "d" none none none none none none (some "any")
        (some [{ name := "a", ref := "d.a" }])).map Dimension.nonadditive
      = .ok (some "any") ∧
    some "any" ≠ some "all" ∧ some "none" ≠ (none : Option String) ∧
    levelInit "l" [{ name := "a", ref := "d.a" }]
        none none none none none none (some "junk")
      = .error (.modelError "Unknown non-additive diension type 'junk'") ∧
    dimensionInit "d" none none none none none none (some "junk")
        (some [{ name := "a", ref := "d.a" }])
      = .error (.modelError "Unknown non-additive diension type 'junk'") := by
  refine ⟨by rfl, by rfl, by rfl, by decide, by decide, by rfl, by rfl⟩

/-! ## C2 — unknown extension name -/

/-- C2: the claim says an extension name resolvable by neither the cache
nor the builtin table fails with an internal error "Unknown '<type>'
extension '<name>'".  The source instead enters the debugger and raises a
plain `Exception("nono")`; the `InternalError` path below that `raise` is
unreachable. -/
theorem c2_unknown_extension_raises_nono :
    finderGet (extensionFinderInit "stores") "nonexistent"
      = .error (.pyException "nono") ∧
    CubesErr.pyException "nono"
      ≠ CubesErr.internalError "Unknown 'stores' extension 'nonexistent'" := by
  exact ⟨by rfl, by decide⟩

/-! ## C8 — `Level` attribute defaults -/

/-- C8: a `Level` built from attributes `[a, b, c]` with no explicit key,
label attribute or order attribute has `key = a`, `label_attribute = b`
and `order_attribute = a`; with a single attribute the label attribute is
the key; an empty attribute list is a model error. -/
theorem c8_level_defaults (nm : String) (a b c : Attr) :
    levelInit nm [a, b, c]
      = .ok { name := nm, attributes := [a, b, c], key := a,
              labelAttribute := b, orderAttribute := a } ∧
    levelInit nm [a]
      = .ok { name := nm, attributes := [a], key := a,
              labelAttribute := a, orderAttribute := a } ∧
    levelInit nm []
      = .error (.modelError "Attribute list should not be empty") := by
  refine ⟨by rfl, by rfl, by rfl⟩

/-! ## C9 — `order` query-parameter parsing -/

theorem splitChar_of_no_sep (sep : Char) (l : List Char)
    (h : ∀ c ∈ l, c ≠ sep) : splitChar sep l = [l] := by
  induction l with
  | nil => rfl
  | cons c cs ih =>
      have hc : c ≠ sep := h c (List.mem_cons_self _ _)
      have ihcs := ih (fun x hx => h x (List.mem_cons_of_mem _ hx))
      simp [splitChar, hc, ihcs]

theorem splitChar_append_sep (sep : Char) (f rest : List Char)
    (hf : ∀ c ∈ f, c ≠ sep) :
    splitChar sep (f ++ sep :: rest) = f :: splitChar sep rest := by
  induction f with
  | nil => simp [splitChar]
  | cons c cs ih =>
      have hc : c ≠ sep := hf c (List.mem_cons_self _ _)
      have ihcs := ih (fun x hx => hf x (List.mem_cons_of_mem _ hx))
      simp [splitChar, hc, ihcs]

theorem parseOrderArgs_from_nil (values : List String)
    (acc : List (String × Option String)) :
    values.foldl
      (fun acc orders =>
        acc ++ (splitChar ',' orders.data).map parseOrderSegment) acc
    = acc ++ parseOrderArgs values := by
  induction values generalizing acc with
  | nil => simp [parseOrderArgs]
  | cons v vs ih =>
      show List.foldl _ (acc ++ _) vs = _
      rw [ih]
      unfold parseOrderArgs
      show _ = acc ++ List.foldl _ ([] ++ _) vs
      rw [ih (([] : List (String × Option String)) ++ _)]
      simp [parseOrderArgs]

/-- C9: each value of the repeatable `order` parameter is comma-split; a
comma-segment without a colon becomes `(segment, absent)` and one of the
form `field:direction` becomes `(field, direction)`; the pairs of repeated
parameters are concatenated in order; in particular
`order=a:desc,b&order=c` parses to
`[("a","desc"), ("b", absent), ("c", absent)]`. -/
theorem c9_order_parsing (vs ws : List String) (f d : List Char)
    (hf : ∀ c ∈ f, c ≠ ':') (hd : ∀ c ∈ d, c ≠ ':') :
    parseOrderArgs ["a:desc,b", "c"]
      = [("a", some "desc"), ("b", none), ("c", none)] ∧
    parseOrderArgs (vs ++ ws) = parseOrderArgs vs ++ parseOrderArgs ws ∧
    parseOrderSegment f = (String.mk f, none) ∧
    parseOrderSegment (f ++ ':' :: d) = (String.mk f, some (String.mk d)) := by
  refine ⟨by rfl, ?_, ?_, ?_⟩
  · unfold parseOrderArgs
    rw [List.foldl_append, parseOrderArgs_from_nil ws, parseOrderArgs]
  · unfold parseOrderSegment
    rw [splitChar_of_no_sep _ _ hf]
  · unfold parseOrderSegment
    rw [splitChar_append_sep _ _ _ hf, splitChar_of_no_sep _ _ hd]

/-- Witness for C9 at `order=a:desc,b&order=c` with segment `"a"` and
direction `"desc"`. -/
theorem c9_order_parsing_witness :
    parseOrderArgs ["a:desc,b", "c"]
      = [("a", some "desc"), ("b", none), ("c", none)] ∧
    parseOrderArgs (["a:desc,b"] ++ ["c"])
      = parseOrderArgs ["a:desc,b"] ++ parseOrderArgs ["c"] ∧
    parseOrderSegment "b".data = ("b", none) ∧
    parseOrderSegment ("a".data ++ ':' :: "desc".data)
      = ("a", some "desc") := by
  have h := c9_order_parsing ["a:desc,b"] ["c"] "b".data "desc".data
    (by decide) (by decide)
  have h2 := c9_order_parsing ["a:desc,b"] ["c"] "a".data "desc".data
    (by decide) (by decide)
  exact ⟨h.1, h.2.1, h.2.2.1, h2.2.2.2⟩

/-! ## C4 — `string_to_dimension_level` -/

theorem spanWord_append (w rest : List Char) (hw : ∀ c ∈ w, isWordChar c)
    (hr : ∀ c, rest.head? = some c → isWordChar c = false) :
    spanWord (w ++ rest) = (w, rest) := by
  induction w with
  | nil =>
      cases rest with
      | nil => rfl
      | cons c cs =>
          have hc : isWordChar c = false := hr c rfl
          simp [spanWord, hc]
  | cons c w' ih =>
      have hc : isWordChar c := hw c (List.mem_cons_self _ _)
      have ihw := ih (fun x hx => hw x (List.mem_cons_of_mem _ hx))
      simp [spanWord, hc, ihw]

/-- The drilldown pattern on a bare dimension identifier. -/
theorem drilldownMatch_dim (dd : List Char) (hne : dd ≠ [])
    (hw : ∀ c ∈ dd, isWordChar c) :
    drilldownMatch dd = some (String.mk dd, none, none) := by
  have hspan : spanWord dd = (dd, []) := by
    simpa using spanWord_append dd [] hw (by intro c hc; cases hc)
  cases dd with
  | nil => exact absurd rfl hne
  | cons a as =>
      unfold drilldownMatch
      rw [hspan]

/-- The drilldown pattern on `dimension@hierarchy`. -/
theorem drilldownMatch_dim_hier (dd hs : List Char) (hne : dd ≠ [])
    (hw : ∀ c ∈ dd, isWordChar c) (hhne : hs ≠ [])
    (hhw : ∀ c ∈ hs, isWordChar c) :
    drilldownMatch (dd ++ '@' :: hs)
      = some (String.mk dd, some (String.mk hs), none) := by
  have hspan : spanWord (dd ++ '@' :: hs) = (dd, '@' :: hs) :=
    spanWord_append dd ('@' :: hs) hw (by intro c hc; cases hc; rfl)
  have hspan2 : spanWord hs = (hs, []) := by
    simpa using spanWord_append hs [] hhw (by intro c hc; cases hc)
  cases dd with
  | nil => exact absurd rfl hne
  | cons a as =>
      cases hs with
      | nil => exact absurd rfl hhne
      | cons b bs =>
          unfold drilldownMatch
          rw [hspan]
          simp only [hspan2]

/-- The drilldown pattern on `dimension:level`. -/
theorem drilldownMatch_dim_level (dd ls : List Char) (hne : dd ≠ [])
    (hw : ∀ c ∈ dd, isWordChar c) (hlne : ls ≠ [])
    (hlw : ∀ c ∈ ls, isWordChar c) :
    drilldownMatch (dd ++ ':' :: ls)
      = some (String.mk dd, none, some (String.mk ls)) := by
  have hspan : spanWord (dd ++ ':' :: ls) = (dd, ':' :: ls) :=
    spanWord_append dd (':' :: ls) hw (by intro c hc; cases hc; rfl)
  have hspan2 : spanWord ls = (ls, []) := by
    simpa using spanWord_append ls [] hlw (by intro c hc; cases hc)
  cases dd with
  | nil => exact absurd rfl hne
  | cons a as =>
      cases ls with
      | nil => exact absurd rfl hlne
      | cons b bs =>
          unfold drilldownMatch
          rw [hspan]
          simp [hspan2]

/-- The drilldown pattern on `dimension@hierarchy:level`. -/
theorem drilldownMatch_full (dd hs ls : List Char) (hne : dd ≠ [])
    (hw : ∀ c ∈ dd, isWordChar c) (hhne : hs ≠ [])
    (hhw : ∀ c ∈ hs, isWordChar c) (hlne : ls ≠ [])
    (hlw : ∀ c ∈ ls, isWordChar c) :
    drilldownMatch (dd ++ '@' :: (hs ++ ':' :: ls))
      = some (String.mk dd, some (String.mk hs), some (String.mk ls)) := by
  have hspan : spanWord (dd ++ '@' :: (hs ++ ':' :: ls))
      = (dd, '@' :: (hs ++ ':' :: ls)) :=
    spanWord_append dd ('@' :: (hs ++ ':' :: ls)) hw
      (by intro c hc; cases hc; rfl)
  have hspan2 : spanWord (hs ++ ':' :: ls) = (hs, ':' :: ls) :=
    spanWord_append hs (':' :: ls) hhw (by intro c hc; cases hc; rfl)
  have hspan3 : spanWord ls = (ls, []) := by
    simpa using spanWord_append ls [] hlw (by intro c hc; cases hc)
  cases dd with
  | nil => exact absurd rfl hne
  | cons a as =>
      cases hs with
      | nil => exact absurd rfl hhne
      | cons b bs =>
          cases ls with
          | nil => exact absurd rfl hlne
          | cons e es =>
              unfold drilldownMatch
              rw [hspan]
              simp only [hspan2, hspan3]

theorem string_ne_empty_of_data {s : String} (h : s.data ≠ []) : s ≠ "" :=
  fun he => h (by rw [he])

/-- C4 counterexample: the claim says every input that does not match the
`dimension[@hierarchy][:level]` pattern fails with an argument error, but
`"sales!"` — which does not match the pattern — is accepted, because the
source uses `re.match`, which anchors only at the start and ignores
trailing unmatched text. -/
theorem c4_trailing_junk_counterexample :
    matchesDrilldownPattern "sales!" = false ∧
    string_to_dimension_level "sales!" = .ok ("sales", none, none) := by
  exact ⟨by rfl, by rfl⟩

/-- C4 (amended): `string_to_dimension_level` parses
`dimension[@hierarchy][:level]` (components `[A-Za-z0-9_]+`) into the
3-tuple with hierarchy/level absent when not present; the empty string and
any input whose first character is not a word character fail with an
argument error; any other input is accepted, parsed by its longest
matching prefix with trailing unmatched text ignored. -/
theorem c4_string_to_dimension_level (d hs ls : String) (c1 c2 : Char)
    (cs1 cs2 : List Char)
    (hd : d.data ≠ [] ∧ ∀ ch ∈ d.data, isWordChar ch)
    (hh : hs.data ≠ [] ∧ ∀ ch ∈ hs.data, isWordChar ch)
    (hl : ls.data ≠ [] ∧ ∀ ch ∈ ls.data, isWordChar ch)
    (hc1 : isWordChar c1) (hc2 : ¬ isWordChar c2) :
    string_to_dimension_level "" =
      .error (.argumentError "Drilldown string should not be empty") ∧
    string_to_dimension_level d = .ok (d, none, none) ∧
    string_to_dimension_level (d ++ "@" ++ hs) = .ok (d, some hs, none) ∧
    string_to_dimension_level (d ++ ":" ++ ls) = .ok (d, none, some ls) ∧
    string_to_dimension_level (d ++ "@" ++ hs ++ ":" ++ ls)
      = .ok (d, some hs, some ls) ∧
    (string_to_dimension_level (String.mk (c1 :: cs1))).isOk = true ∧
    string_to_dimension_level (String.mk (c2 :: cs2))
      = .error (.argumentError
          ("String '" ++ String.mk (c2 :: cs2)
            ++ "' does not match drilldown level "
            ++ "pattern 'dimension@hierarchy:level'")) := by
  obtain ⟨hdne, hdw⟩ := hd
  obtain ⟨hhne, hhw⟩ := hh
  obtain ⟨hlne, hlw⟩ := hl
  refine ⟨by rfl, ?_, ?_, ?_, ?_, ?_, ?_⟩
  · have hne : d ≠ "" := string_ne_empty_of_data hdne
    unfold string_to_dimension_level
    rw [if_neg hne, drilldownMatch_dim d.data hdne hdw]
  · have hdata : (d ++ "@" ++ hs).data = d.data ++ '@' :: hs.data := by
      simp [String.data_append]
    have hne : d ++ "@" ++ hs ≠ "" :=
      string_ne_empty_of_data (by simp [hdata, hdne])
    unfold string_to_dimension_level
    rw [if_neg hne, hdata,
      drilldownMatch_dim_hier d.data hs.data hdne hdw hhne hhw]
  · have hdata : (d ++ ":" ++ ls).data = d.data ++ ':' :: ls.data := by
      simp [String.data_append]
    have hne : d ++ ":" ++ ls ≠ "" :=
      string_ne_empty_of_data (by simp [hdata, hdne])
    unfold string_to_dimension_level
    rw [if_neg hne, hdata,
      drilldownMatch_dim_level d.data ls.data hdne hdw hlne hlw]
  · have hdata : (d ++ "@" ++ hs ++ ":" ++ ls).data
        = d.data ++ '@' :: (hs.data ++ ':' :: ls.data) := by
      simp [String.data_append]
    have hne : d ++ "@" ++ hs ++ ":" ++ ls ≠ "" :=
      string_ne_empty_of_data (by simp [hdata, hdne])
    unfold string_to_dimension_level
    rw [if_neg hne, hdata,
      drilldownMatch_full d.data hs.data ls.data hdne hdw hhne hhw hlne hlw]
  · have hne : String.mk (c1 :: cs1) ≠ "" :=
      string_ne_empty_of_data (by simp)
    have hsp : spanWord (c1 :: cs1)
        = (c1 :: (spanWord cs1).1, (spanWord cs1).2) := by
      simp [spanWord, hc1]
    unfold string_to_dimension_level
    rw [if_neg hne]
    show (match drilldownMatch (c1 :: cs1) with
      | some t => Except.ok t
      | none => _).isOk = true
    unfold drilldownMatch
    rw [hsp]
    rfl
  · have hne : String.mk (c2 :: cs2) ≠ "" :=
      string_ne_empty_of_data (by simp)
    have hsp : spanWord (c2 :: cs2) = ([], c2 :: cs2) := by
      simp [spanWord, hc2]
    unfold string_to_dimension_level
    rw [if_neg hne]
    show (match drilldownMatch (c2 :: cs2) with
      | some t => Except.ok t
      | none => Except.error _) = _
    unfold drilldownMatch
    rw [hsp]

/-- Witness for C4 at `"sales@fiscal:month"`, `"x1"` and `"!x"`. -/
theorem c4_string_to_dimension_level_witness :
    string_to_dimension_level "" =
      .error (.argumentError "Drilldown string should not be empty") ∧
    string_to_dimension_level "sales" = .ok ("sales", none, none) ∧
    string_to_dimension_level ("sales" ++ "@" ++ "fiscal")
      = .ok ("sales", some "fiscal", none) ∧
    string_to_dimension_level ("sales" ++ ":" ++ "month")
      = .ok ("sales", none, some "month") ∧
    string_to_dimension_level ("sales" ++ "@" ++ "fiscal" ++ ":" ++ "month")
      = .ok ("sales", some "fiscal", some "month") ∧
    (string_to_dimension_level (String.mk ('x' :: "1".data))).isOk = true ∧
    string_to_dimension_level (String.mk ('!' :: "x".data))
      = .error (.argumentError
          ("String '" ++ String.mk ('!' :: "x".data)
            ++ "' does not match drilldown level "
            ++ "pattern 'dimension@hierarchy:level'")) :=
  c4_string_to_dimension_level "sales" "fiscal" "month" 'x' '!'
    "1".data "x".data ⟨by decide, by decide⟩ ⟨by decide, by decide⟩
    ⟨by decide, by decide⟩ (by decide) (by decide)

/-! ## C3 — `Hierarchy.rollup` -/

theorem dictSet_ne_nil {α : Type} (m : List (String × α)) (k : String)
    (v : α) : dictSet m k v ≠ [] := by
  cases m with
  | nil => simp [dictSet]
  | cons p rest =>
      by_cases h : p.1 = k <;> simp [dictSet, h]

theorem dictSet_head_key {α : Type} (m : List (String × α)) (k : String)
    (v : α) (hm : m ≠ []) :
    (dictSet m k v).head?.map Prod.fst = m.head?.map Prod.fst := by
  cases m with
  | nil => exact absurd rfl hm
  | cons p rest =>
      by_cases h : p.1 = k <;> simp [dictSet, h]

theorem foldl_dictSet_head_key {α : Type} (key : α → String) (xs : List α)
    (m : List (String × α)) (hm : m ≠ []) :
    ((xs.foldl (fun m x => dictSet m (key x) x) m).head?.map Prod.fst)
      = m.head?.map Prod.fst := by
  induction xs generalizing m with
  | nil => rfl
  | cons x rest ih =>
      show ((rest.foldl _ (dictSet m (key x) x)).head?.map Prod.fst) = _
      rw [ih (dictSet m (key x) x) (dictSet_ne_nil m (key x) x)]
      exact dictSet_head_key m (key x) x hm

/-- A hierarchy built from a nonempty level list has the first level's name
as the first `_levels` key. -/
theorem hierarchyInit_head_key (nm : String) (lvls : List Level)
    (h : Hierarchy) (l0 : Level) (hinit : hierarchyInit nm lvls = .ok h)
    (hhead : lvls.head? = some l0) :
    h.hlevels.head?.map Prod.fst = some l0.name := by
  cases lvls with
  | nil => cases hhead
  | cons a rest =>
      cases hhead
      unfold hierarchyInit at hinit
      simp only [List.isEmpty_cons, if_neg] at hinit
      cases hinit
      show ((objectDict (fun l => l.name) (l0 :: rest)).head?.map Prod.fst)
        = some l0.name
      unfold objectDict
      show ((rest.foldl _ (dictSet [] l0.name l0)).head?.map Prod.fst) = _
      rw [foldl_dictSet_head_key (fun l => l.name) rest _
        (dictSet_ne_nil [] l0.name l0)]
      rfl

/-- The attributes and the levels of the C3 example hierarchy (a
year–quarter–month date hierarchy). -/
def c3Attr (n : String) : Attr := { name := n, ref := "date." ++ n }

def c3Level (n : String) : Level :=
  { name := n, attributes := [c3Attr n], key := c3Attr n,
    labelAttribute := c3Attr n, orderAttribute := c3Attr n }

def c3Levels : List Level :=
  [c3Level "year", c3Level "quarter", c3Level "month"]

def c3Hierarchy : Hierarchy :=
  { name := "default", hlevels := objectDict (fun l => l.name) c3Levels }

/-- C3 counterexample: the claim says `rollup(path, <first level>)` returns
the empty list, but rolling up `["2020","Q1","01"]` to the first level
`year` of a year–quarter–month hierarchy keeps `level_index("year") + 1 =
1` element and returns `["2020"]`. -/
theorem c3_rollup_first_level_counterexample :
    hierarchyInit "default" c3Levels = .ok c3Hierarchy ∧
    rollup c3Hierarchy ["2020", "Q1", "01"] (some (c3Level "year"))
      = .ok ["2020"] ∧
    (["2020"] : List String) ≠ [] := by
  exact ⟨by rfl, by rfl, by decide⟩

/-- C3 (amended): `rollup(path)` with no level drops exactly the last
element of `path` (the empty list when `path` has at most one element);
`rollup(path, level)` truncates `path` to `level_index(level) + 1`
elements — so for the first level it returns the one-element prefix of a
nonempty `path` — and fails with a hierarchy error when that count
exceeds `len(path)`. -/
theorem rollup_some_eq (h : Hierarchy) (path : List String) (lv : Level) :
    rollup h path (some lv) = Except.bind (levelIndex h lv.name) (fun idx =>
      if idx + 1 > path.length then
        .error (.hierarchyError
          ("Can not roll-up: level '" ++ lv.name ++ "' – it is deeper "
            ++ "than deepest element of path"))
      else .ok (path.take (idx + 1))) := rfl

theorem rollup_take (h : Hierarchy) (path : List String) (lv : Level)
    (i : Nat) (hidx : levelIndex h lv.name = .ok i)
    (hle : i + 1 ≤ path.length) :
    rollup h path (some lv) = .ok (path.take (i + 1)) := by
  rw [rollup_some_eq, hidx]
  simp only [Except.bind]
  rw [if_neg (by omega)]

theorem rollup_deeper (h : Hierarchy) (path : List String) (lv : Level)
    (i : Nat) (hidx : levelIndex h lv.name = .ok i)
    (hgt : i + 1 > path.length) :
    ∃ msg, rollup h path (some lv) = .error (.hierarchyError msg) := by
  refine ⟨"Can not roll-up: level '" ++ lv.name ++ "' – it is deeper "
    ++ "than deepest element of path", ?_⟩
  rw [rollup_some_eq, hidx]
  simp only [Except.bind]
  rw [if_pos hgt]

theorem c3_rollup (h : Hierarchy) (path : List String) (lv : Level)
    (i : Nat) (nm : String) (lvls : List Level) (l0 : Level) :
    rollup h path none = .ok path.dropLast ∧
    (levelIndex h lv.name = .ok i → i + 1 ≤ path.length →
      rollup h path (some lv) = .ok (path.take (i + 1))) ∧
    (levelIndex h lv.name = .ok i → i + 1 > path.length →
      ∃ msg, rollup h path (some lv) = .error (.hierarchyError msg)) ∧
    (hierarchyInit nm lvls = .ok h → lvls.head? = some l0 → path ≠ [] →
      rollup h path (some l0) = .ok (path.take 1)) := by
  refine ⟨?_, fun hidx hle => rollup_take h path lv i hidx hle,
    fun hidx hgt => rollup_deeper h path lv i hidx hgt, ?_⟩
  · unfold rollup
    by_cases hp : path.length > 0
    · rw [if_pos hp, List.dropLast_eq_take]
    · have : path = [] := by
        cases path with
        | nil => rfl
        | cons a as => simp at hp
      subst this
      rfl
  · intro hinit hhead hne
    have hkey := hierarchyInit_head_key nm lvls h l0 hinit hhead
    have hidx : levelIndex h l0.name = .ok 0 := by
      unfold levelIndex
      cases hkeys : h.hlevels with
      | nil => rw [hkeys] at hkey; cases hkey
      | cons p rest =>
          rw [hkeys] at hkey
          simp only [List.head?_cons, Option.map_some'] at hkey
          have hp1 : p.1 = l0.name := Option.some.inj hkey
          simp [listIndex, hp1]
    have hle : 0 + 1 ≤ path.length := by
      cases path with
      | nil => exact absurd rfl hne
      | cons a as => simp
    simpa using rollup_take h path l0 0 hidx hle

/-- Witness for C3 on the year–quarter–month hierarchy with path
`["2020","Q1","01"]`. -/
theorem c3_rollup_witness :
    rollup c3Hierarchy ["2020", "Q1", "01"] none
      = .ok (["2020", "Q1", "01"] : List String).dropLast ∧
    rollup c3Hierarchy ["2020", "Q1", "01"] (some (c3Level "quarter"))
      = .ok ((["2020", "Q1", "01"] : List String).take (1 + 1)) ∧
    (∃ msg, rollup c3Hierarchy ["2020"] (some (c3Level "quarter"))
      = .error (.hierarchyError msg)) ∧
    rollup c3Hierarchy ["2020", "Q1", "01"] (some (c3Level "year"))
      = .ok ((["2020", "Q1", "01"] : List String).take 1) := by
  have t1 := c3_rollup c3Hierarchy ["2020", "Q1", "01"]
    (c3Level "quarter") 1 "default" c3Levels (c3Level "year")
  have t2 := c3_rollup c3Hierarchy ["2020"]
    (c3Level "quarter") 1 "default" c3Levels (c3Level "year")
  exact ⟨t1.1, t1.2.1 (by rfl) (by decide), t2.2.2.1 (by rfl) (by decide),
    t1.2.2.2 (by rfl) (by rfl) (by decide)⟩

/-! ## C6 — SQL compilation name resolution and function whitelist -/

/-- C6: inside a compilation context a variable resolves in the fixed order
columns → parameters → the four zero-argument SQL variables; any other
name is an expression error "Unknown attribute, variable or parameter
'<name>'[ in <label>]"; a function call naming a function outside
`SQL_ALL_FUNCTIONS` (with compilable arguments) is an expression error. -/
theorem c6_resolution_order (ctx : SQLExpressionContext) (n fname : String)
    (c p : SqlCol) (args : List SqlExpr) (cargs : List SqlCol) :
    (alGet ctx.columns n = some c → contextResolve ctx n = .ok c) ∧
    (alGet ctx.columns n = none → alGet ctx.parameters n = some p →
      contextResolve ctx n = .ok p) ∧
    (alGet ctx.columns n = none → alGet ctx.parameters n = none →
      SQL_VARIABLES.contains n → contextResolve ctx n = .ok (.sqlvar n)) ∧
    (alGet ctx.columns n = none → alGet ctx.parameters n = none →
      ¬ SQL_VARIABLES.contains n →
      contextResolve ctx n = .error (.expressionError
        ("Unknown attribute, variable or parameter '" ++ n ++ "'"
          ++ (if truthy ctx.label then " in " ++ ctx.label.getD ""
              else "")))) ∧
    (¬ SQL_ALL_FUNCTIONS.contains fname →
      compileExprList ctx args = .ok cargs →
      compileExpr ctx (.func fname args) = .error (.expressionError
        ("Unknown function '" ++ fname ++ "'"))) := by
  refine ⟨?_, ?_, ?_, ?_, ?_⟩
  · intro hcol
    unfold contextResolve
    rw [hcol]
  · intro hcol hpar
    unfold contextResolve
    rw [hcol, hpar]
  · intro hcol hpar hvar
    unfold contextResolve
    rw [hcol, hpar, if_pos hvar]
  · intro hcol hpar hvar
    unfold contextResolve
    rw [hcol, hpar, if_neg hvar]
  · intro hfun hargs
    unfold compileExpr
    rw [hargs]
    show Except.bind (Except.ok cargs) _ = _
    simp only [Except.bind]
    unfold contextFunction
    rw [if_pos hfun]
    rfl

/-- Witness for C6: column `a`, parameter `p0`, variable `current_date`,
unknown name `zzz` in a context labelled `mycube`, and function `evil`. -/
theorem c6_resolution_order_witness :
    (contextResolve
      { columns := [("a", .column "col_a")], parameters := [],
        label := some "mycube" } "a" = .ok (.column "col_a")) ∧
    (contextResolve
      { columns := [("a", .column "col_a")],
        parameters := [("p0", .bindparam "p" (.int 7) false)],
        label := some "mycube" } "p0"
      = .ok (.bindparam "p" (.int 7) false)) ∧
    (contextResolve
      { columns := [("a", .column "col_a")], parameters := [],
        label := some "mycube" } "current_date"
      = .ok (.sqlvar "current_date")) ∧
    (contextResolve
      { columns := [("a", .column "col_a")], parameters := [],
        label := some "mycube" } "zzz"
      = .error (.expressionError
          ("Unknown attribute, variable or parameter '" ++ "zzz" ++ "'"
            ++ (if truthy (some "mycube") then
                  " in " ++ (some "mycube").getD "" else "")))) ∧
    (compileExpr
      { columns := [("a", .column "col_a")], parameters := [],
        label := some "mycube" } (.func "evil" [.var "a"])
      = .error (.expressionError ("Unknown function '" ++ "evil" ++ "'"))) := by
  have t1 := c6_resolution_order
    { columns := [("a", .column "col_a")], parameters := [],
      label := some "mycube" } "a" "evil" (.column "col_a")
    (.bindparam "p" (.int 7) false) [.var "a"] [.column "col_a"]
  have t2 := c6_resolution_order
    { columns := [("a", .column "col_a")],
      parameters := [("p0", .bindparam "p" (.int 7) false)],
      label := some "mycube" } "p0" "evil" (.column "col_a")
    (.bindparam "p" (.int 7) false) [.var "a"] [.column "col_a"]
  have t3 := c6_resolution_order
    { columns := [("a", .column "col_a")], parameters := [],
      label := some "mycube" } "current_date" "evil" (.column "col_a")
    (.bindparam "p" (.int 7) false) [.var "a"] [.column "col_a"]
  have t4 := c6_resolution_order
    { columns := [("a", .column "col_a")], parameters := [],
      label := some "mycube" } "zzz" "evil" (.column "col_a")
    (.bindparam "p" (.int 7) false) [.var "a"] [.column "col_a"]
  exact ⟨t1.1 (by rfl), t2.2.1 (by rfl) (by rfl),
    t3.2.2.1 (by rfl) (by rfl) (by decide),
    t4.2.2.2.1 (by rfl) (by rfl) (by decide),
    t4.2.2.2.2 (by decide) (by rfl)⟩

/-! ## C5 — `compile_attributes` ordering -/

/-- C5: `compile_attributes` processes `dependants` in order, adding each
compiled column to the context under the attribute's qualified reference so
that later entries of the same call can reference it; with empty
parameters, a dependant `x` whose expression references a name `yref` that
is neither among `bases` nor compiled earlier (nor one of the fixed SQL
variables) fails with an expression error naming `yref`; reordering so
that the attribute with reference `yref` comes first succeeds, with `x`
compiled against `y`'s freshly compiled column. -/
theorem c5_compile_attributes_ordering
    (aggFn : String → SqlAttr → SQLExpressionContext → Option Bool → SqlCol)
    (bases : List (String × SqlCol)) (bName xref yref : String)
    (bCol : SqlCol)
    (hb : alGet bases bName = some bCol)
    (hy : alGet bases yref = none)
    (hyv : ¬ SQL_VARIABLES.contains yref) :
    compile_attributes aggFn bases
        [{ ref := xref, expression := .var yref },
         { ref := yref, expression := .var bName }] []
      = .error (.expressionError
          ("Unknown attribute, variable or parameter '" ++ yref ++ "'")) ∧
    compile_attributes aggFn bases
        [{ ref := yref, expression := .var bName },
         { ref := xref, expression := .var yref }] []
      = .ok (dictSet (dictSet bases yref bCol) xref bCol) := by
  have hresolve_err : contextResolve
      { columns := bases, parameters := [], label := none } yref
      = .error (.expressionError
          ("Unknown attribute, variable or parameter '" ++ yref ++ "'")) := by
    unfold contextResolve
    rw [hy]
    show (if SQL_VARIABLES.contains yref then _ else _) = _
    rw [if_neg hyv]
    simp [truthy]
  have hresolve_b : contextResolve
      { columns := bases, parameters := [], label := none } bName
      = .ok bCol := by
    unfold contextResolve
    rw [hb]
  have hresolve_y2 : contextResolve
      { columns := dictSet bases yref bCol, parameters := [],
        label := none } yref = .ok bCol := by
    unfold contextResolve
    rw [alGet_dictSet_self]
  constructor
  · unfold compile_attributes compileAttributesLoop compileExpr
    simp [truthy, addColumn, Bind.bind, Except.bind, hresolve_err]
  · unfold compile_attributes compileAttributesLoop compileExpr
    simp only [truthy, addColumn, Bind.bind, Except.bind, hresolve_b]
    unfold compileAttributesLoop compileExpr
    simp only [truthy, addColumn, Bind.bind, Except.bind, hresolve_y2]
    unfold compileAttributesLoop
    simp [Bind.bind, Except.bind]

/-- Witness for C5: base column `base`, dependants `c.x` (referencing
`c.y`) and `c.y` (referencing `base`). -/
theorem c5_compile_attributes_ordering_witness :
    compile_attributes (fun _ _ _ _ => .column "agg")
        [("base", .column "b")]
        [{ ref := "c.x", expression := .var "c.y" },
         { ref := "c.y", expression := .var "base" }] []
      = .error (.expressionError
          ("Unknown attribute, variable or parameter '" ++ "c.y" ++ "'")) ∧
    compile_attributes (fun _ _ _ _ => .column "agg")
        [("base", .column "b")]
        [{ ref := "c.y", expression := .var "base" },
         { ref := "c.x", expression := .var "c.y" }] []
      = .ok (dictSet (dictSet [("base", .column "b")] "c.y" (.column "b"))
          "c.x" (.column "b")) :=
  c5_compile_attributes_ordering (fun _ _ _ _ => .column "agg")
    [("base", .column "b")] "base" "c.x" "c.y" (.column "b")
    (by rfl) (by rfl) (by decide)

/-! ## C7 — `StarSchemaMapper` attribute lookup -/

/-- The C7 example: naming `dim_`/`ft_` prefixes, cube `sales` with no
explicit mappings, and a non-localizable attribute `name` owned by the
flat, detail-free dimension `customer`. -/
def c7Naming : Naming :=
  { dimension_prefix := some "dim_", fact_prefix := some "ft_" }

def c7Mapper : Mapper := mapperInit { name := "sales" } c7Naming none

def c7FlatAttr : MapperAttr :=
  { name := "name", ref := "customer.name",
    dimension := some { name := "customer", levelAttrCounts := [1] } }

/-- C7 counterexample: the claim says the implicit fallback maps an
attribute with an owning dimension to the owning dimension's derived
table, but for an attribute of a flat dimension without details
(`customer`, one level, one attribute) the base rule maps to the fact
table `ft_sales`, not `dim_customer`. -/
theorem c7_flat_dimension_counterexample :
    starSchemaGetItem c7Mapper c7FlatAttr
      = .ok { schema := none, table := "ft_sales", column := "name" } ∧
    c7Mapper.fact_name = "ft_sales" ∧
    dimensionTableName c7Mapper "customer" = "dim_customer" ∧
    "ft_sales" ≠ "dim_customer" := by
  exact ⟨by rfl, by rfl, by rfl, by decide⟩

/-- C7 (amended): `StarSchemaMapper.__getitem__` first fails with a model
error when the attribute carries a derived expression; otherwise, when the
attribute's locale-qualified logical reference is in the cube's explicit
mapping table it returns exactly that explicit physical reference, and
else it returns the base implicit reference: the column named after the
attribute (locale-suffixed when localizable) in the owning dimension's
derived table — or in the fact table when the attribute has no owning
dimension, or when its owning dimension is flat and has no details. -/
theorem c7_star_schema_mapping (m : Mapper) (a : MapperAttr)
    (d : MapperDim) (e : String) (phys : ColumnReference) :
    (a.expression = some e → starSchemaGetItem m a
      = .error (.modelError
          ("Attribute '" ++ a.name ++ "' has an expression, it can not have "
            ++ "a direct physical representation"))) ∧
    (a.expression = none →
      alGet m.mappings (localizedRef a
          (if a.is_localizable then some (chooseLocale m.locale a)
           else none)) = some phys →
      starSchemaGetItem m a = .ok phys) ∧
    (a.expression = none →
      alGet m.mappings (localizedRef a
          (if a.is_localizable then some (chooseLocale m.locale a)
           else none)) = none →
      starSchemaGetItem m a = .ok (mapperGetItem m a)) ∧
    (a.dimension = none → (mapperGetItem m a).table = m.fact_name ∧
      (mapperGetItem m a).schema = m.schema) ∧
    (a.dimension = some d → ¬ (d.is_flat ∧ ¬ d.has_details) →
      (mapperGetItem m a).table = dimensionTableName m d.name ∧
      (mapperGetItem m a).schema = pyOr m.dimension_schema m.schema) ∧
    (a.dimension = some d → (d.is_flat ∧ ¬ d.has_details) →
      (mapperGetItem m a).table = m.fact_name) ∧
    (¬ a.is_localizable → (mapperGetItem m a).column = a.name) := by
  refine ⟨?_, ?_, ?_, ?_, ?_, ?_, ?_⟩
  · intro hexp
    unfold starSchemaGetItem
    rw [hexp]
    rfl
  · intro hexp hmap
    unfold starSchemaGetItem
    rw [hexp]
    show (match alGet m.mappings (localizedRef a
        (if a.is_localizable then some (chooseLocale m.locale a)
         else none)) with
      | some physical => Except.ok physical
      | none => Except.ok (mapperGetItem m a)) = _
    rw [hmap]
  · intro hexp hmap
    unfold starSchemaGetItem
    rw [hexp]
    show (match alGet m.mappings (localizedRef a
        (if a.is_localizable then some (chooseLocale m.locale a)
         else none)) with
      | some physical => Except.ok physical
      | none => Except.ok (mapperGetItem m a)) = _
    rw [hmap]
  · intro hdim
    unfold mapperGetItem attributeTable
    rw [hdim]
    exact ⟨rfl, rfl⟩
  · intro hdim hnot
    unfold mapperGetItem attributeTable
    rw [hdim]
    constructor
    · show (if d.is_flat ∧ ¬ d.has_details then m.fact_name
        else dimensionTableName m d.name) = _
      rw [if_neg hnot]
    · rfl
  · intro hdim hflat
    unfold mapperGetItem attributeTable
    rw [hdim]
    show (if d.is_flat ∧ ¬ d.has_details then m.fact_name
      else dimensionTableName m d.name) = _
    rw [if_pos hflat]
  · intro hloc
    unfold mapperGetItem
    rw [if_neg hloc]

/-- Witness for C7: an expression attribute, an explicitly mapped
attribute, the flat-dimension fallback, a deep dimension, and an unowned
attribute, all against the `sales` cube with `dim_`/`ft_` naming. -/
theorem c7_star_schema_mapping_witness :
    (starSchemaGetItem c7Mapper
        { name := "total", ref := "total", expression := some "price * qty" }
      = .error (.modelError
          ("Attribute '" ++ "total" ++ "' has an expression, it can not have "
            ++ "a direct physical representation"))) ∧
    (starSchemaGetItem
        (mapperInit
          { name := "sales",
            mappings := [("customer.name",
              { schema := none, table := "dim_customer", column := "name" })] }
          c7Naming none)
        { name := "name", ref := "customer.name",
          dimension := some { name := "customer", levelAttrCounts := [1, 2] } }
      = .ok { schema := none, table := "dim_customer", column := "name" }) ∧
    (starSchemaGetItem c7Mapper c7FlatAttr
      = .ok (mapperGetItem c7Mapper c7FlatAttr)) ∧
    ((mapperGetItem c7Mapper
        { name := "amount", ref := "amount" }).table = c7Mapper.fact_name) ∧
    ((mapperGetItem c7Mapper
        { name := "name", ref := "customer.name",
          dimension := some { name := "customer",
                              levelAttrCounts := [1, 2] } }).table
      = dimensionTableName c7Mapper "customer") ∧
    ((mapperGetItem c7Mapper c7FlatAttr).table = c7Mapper.fact_name) ∧
    ((mapperGetItem c7Mapper c7FlatAttr).column = "name") := by
  have t1 := c7_star_schema_mapping c7Mapper
    { name := "total", ref := "total", expression := some "price * qty" }
    { name := "customer", levelAttrCounts := [1] } "price * qty"
    { schema := none, table := "dim_customer", column := "name" }
  have t2 := c7_star_schema_mapping
    (mapperInit
      { name := "sales",
        mappings := [("customer.name",
          { schema := none, table := "dim_customer", column := "name" })] }
      c7Naming none)
    { name := "name", ref := "customer.name",
      dimension := some { name := "customer", levelAttrCounts := [1, 2] } }
    { name := "customer", levelAttrCounts := [1, 2] } "e"
    { schema := none, table := "dim_customer", column := "name" }
  have t3 := c7_star_schema_mapping c7Mapper c7FlatAttr
    { name := "customer", levelAttrCounts := [1] } "e"
    { schema := none, table := "dim_customer", column := "name" }
  have t4 := c7_star_schema_mapping c7Mapper
    { name := "amount", ref := "amount" }
    { name := "customer", levelAttrCounts := [1] } "e"
    { schema := none, table := "dim_customer", column := "name" }
  have t5 := c7_star_schema_mapping c7Mapper
    { name := "name", ref := "customer.name",
      dimension := some { name := "customer", levelAttrCounts := [1, 2] } }
    { name := "customer", levelAttrCounts := [1, 2] } "e"
    { schema := none, table := "dim_customer", column := "name" }
  exact ⟨t1.1 (by rfl), t2.2.1 (by rfl) (by rfl),
    t3.2.2.1 (by rfl) (by rfl),
    (t4.2.2.2.1 (by rfl)).1,
    (t5.2.2.2.2.1 (by rfl) (by decide)).1,
    t3.2.2.2.2.2.1 (by rfl) (by decide),
    t3.2.2.2.2.2.2 (by decide)⟩

/-! ## C10 — the stored default hierarchy name always resolves -/

theorem hierarchyInit_name (nm : String) (lvls : List Level) (h : Hierarchy)
    (hinit : hierarchyInit nm lvls = .ok h) : h.name = nm := by
  unfold hierarchyInit at hinit
  by_cases he : lvls.isEmpty
  · rw [if_pos he] at hinit
    cases hinit
  · rw [if_neg he] at hinit
    cases hinit
    rfl

/-- Inversion for a successful `Except` bind. -/
theorem except_bind_ok {α β : Type} {e : Except CubesErr α}
    {f : α → Except CubesErr β} {b : β} (h : e >>= f = .ok b) :
    ∃ a, e = .ok a ∧ f a = .ok b := by
  cases e with
  | error err => simp [Bind.bind, Except.bind] at h
  | ok a => exact ⟨a, rfl, by simpa [Bind.bind, Except.bind] using h⟩

/-- Every entry of the hierarchy mapping built by `Dimension.__init__` is
keyed by its hierarchy's name. -/
theorem dimensionHierarchies_key_inv (name : String)
    (ownedLevels : List (String × Level))
    (hierarchies : Option (List Hierarchy))
    (dh : List (String × Hierarchy))
    (h : dimensionHierarchies name ownedLevels hierarchies = .ok dh) :
    ∀ p ∈ dh, p.2.name = p.1 := by
  cases hierarchies with
  | none =>
      unfold dimensionHierarchies at h
      obtain ⟨dflt, hinit, h⟩ := except_bind_ok h
      cases h
      intro p hp
      rcases List.mem_singleton.mp hp with rfl
      rfl
  | some hs =>
      simp only [dimensionHierarchies] at h
      by_cases hne : ¬ hs.isEmpty = true
      · rw [if_pos hne] at h
        exact objectDictUnique_key_inv _ _ hs dh h
      · rw [if_neg hne] at h
        obtain ⟨dflt, hinit, h⟩ := except_bind_ok h
        cases h
        intro p hp
        rcases List.mem_singleton.mp hp with rfl
        rfl

/-- The default hierarchy picked by `Dimension.__init__` has a name that is
one of the hierarchy-mapping keys; if the requested name (or the fallback
`"default"`) resolves to no hierarchy, it is the first hierarchy. -/
theorem resolveDefaultHierarchy_spec (dh : List (String × Hierarchy))
    (dhn : Option String) (hier : Hierarchy)
    (h : resolveDefaultHierarchy dh dhn = .ok hier)
    (inv : ∀ p ∈ dh, p.2.name = p.1) :
    hier.name ∈ dh.map Prod.fst ∧
    (alGet dh ((pyOr dhn (some "default")).getD "") = none →
      dh.head?.map Prod.fst = some hier.name) := by
  unfold resolveDefaultHierarchy at h
  cases dh with
  | nil => simp [Bind.bind, Except.bind] at h
  | cons p0 rest =>
      simp only [Bind.bind, Except.bind, pure, Except.pure] at h
      cases h
      cases halg : alGet (p0 :: rest) ((pyOr dhn (some "default")).getD "")
        with
      | some v =>
          constructor
          · have hmem := mem_of_alGet_some halg
            have hname := inv _ hmem
            simp only [Option.getD_some]
            rw [hname]
            exact List.mem_map_of_mem Prod.fst hmem
          · intro hnone
            exact Option.noConfusion hnone
      | none =>
          constructor
          · have hname := inv p0 (List.mem_cons_self _ _)
            simp only [Option.getD_none, List.map_cons]
            rw [hname]
            exact List.mem_cons_self _ _
          · intro _
            have hname := inv p0 (List.mem_cons_self _ _)
            simp [hname]

/-- C10: after every successful `Dimension` construction the stored
`default_hierarchy_name` names a hierarchy actually present in the
dimension's hierarchy mapping; and when the requested name (the supplied
`default_hierarchy_name`, or the fallback `"default"`) matches no
hierarchy, construction silently stores the first hierarchy's name instead
of failing. -/
theorem c10_default_hierarchy_resolves (name : String)
    (levels : Option (List Level)) (hierarchies : Option (List Hierarchy))
    (dhn : Option String) (role cardinality category nonadd : Option String)
    (attributes : Option (List Attr)) (d : Dimension)
    (h : dimensionInit name levels hierarchies dhn role cardinality category
      nonadd attributes = .ok d) :
    d.defaultHierarchyName ∈ d.dhierarchies.map Prod.fst ∧
    (alGet d.dhierarchies ((pyOr dhn (some "default")).getD "") = none →
      d.dhierarchies.head?.map Prod.fst = some d.defaultHierarchyName) := by
  unfold dimensionInit at h
  obtain ⟨na, hna, h⟩ := except_bind_ok h
  by_cases h1 : (levels.getD []).isEmpty = true
      ∧ (attributes.getD []).isEmpty = true
  · rw [if_pos h1] at h
    cases h
  · rw [if_neg h1] at h
    by_cases h2 : ¬ (levels.getD []).isEmpty = true
        ∧ ¬ (attributes.getD []).isEmpty = true
    · rw [if_pos h2] at h
      cases h
    · rw [if_neg h2] at h
      dsimp only at h
      by_cases h3 : ¬ (attributes.getD []).isEmpty = true
      · rw [if_pos h3] at h
        obtain ⟨lvlList, hlvl, h⟩ := except_bind_ok h
        obtain ⟨maps, hmaps, h⟩ := except_bind_ok h
        obtain ⟨mA, mB⟩ := maps
        obtain ⟨dh, hdh, h⟩ := except_bind_ok h
        obtain ⟨hier, hhier, h⟩ := except_bind_ok h
        cases h
        have inv := dimensionHierarchies_key_inv _ _ _ _ hdh
        exact resolveDefaultHierarchy_spec _ dhn _ hhier inv
      · rw [if_neg h3] at h
        obtain ⟨lvlList, hlvl, h⟩ := except_bind_ok h
        obtain ⟨maps, hmaps, h⟩ := except_bind_ok h
        obtain ⟨mA, mB⟩ := maps
        obtain ⟨dh, hdh, h⟩ := except_bind_ok h
        obtain ⟨hier, hhier, h⟩ := except_bind_ok h
        cases h
        have inv := dimensionHierarchies_key_inv _ _ _ _ hdh
        exact resolveDefaultHierarchy_spec _ dhn _ hhier inv

/-- A single-attribute level for the C10 example dimension. -/
def c10Level (n : String) : Level :=
  { name := n, attributes := [{ name := n, ref := "date." ++ n }],
    key := { name := n, ref := "date." ++ n },
    labelAttribute := { name := n, ref := "date." ++ n },
    orderAttribute := { name := n, ref := "date." ++ n } }

def c10H1 : Hierarchy :=
  { name := "h1", hlevels := objectDict (fun l => l.name) [c10Level "year"] }

def c10H2 : Hierarchy :=
  { name := "h2",
    hlevels := objectDict (fun l => l.name) [c10Level "quarter"] }

def c10FallbackDim : Dimension :=
  { name := "", dlevels := [], dattributes := [], dattributesByRef := [],
    dhierarchies := [], defaultHierarchy := { name := "", hlevels := [] },
    defaultHierarchyName := "" }

/-- The dimension built with hierarchies `h1`/`h2` and the unresolvable
default hierarchy name `"nope"`. -/
def c10Dim : Dimension :=
  (dimensionInit "date" (some [c10Level "year", c10Level "quarter"])
      (some [c10H1, c10H2]) (some "nope")).toOption.getD c10FallbackDim

/-- Witness for C10: construction with the unknown default hierarchy name
`"nope"` succeeds, the stored name resolves, and it is the first
hierarchy's name `"h1"`. -/
theorem c10_default_hierarchy_resolves_witness :
    dimensionInit "date" (some [c10Level "year", c10Level "quarter"])
        (some [c10H1, c10H2]) (some "nope") = .ok c10Dim ∧
    (c10Dim.defaultHierarchyName ∈ c10Dim.dhierarchies.map Prod.fst ∧
      (alGet c10Dim.dhierarchies
          ((pyOr (some "nope") (some "default")).getD "") = none →
        c10Dim.dhierarchies.head?.map Prod.fst
          = some c10Dim.defaultHierarchyName)) ∧
    alGet c10Dim.dhierarchies
        ((pyOr (some "nope") (some "default")).getD "") = none ∧
    c10Dim.defaultHierarchyName = "h1" := by
  refine ⟨by rfl,
    c10_default_hierarchy_resolves "date"
      (some [c10Level "year", c10Level "quarter"]) (some [c10H1, c10H2])
      (some "nope") none none none none none c10Dim (by rfl),
    by rfl, by rfl⟩

end Cubes
